import Mathlib

/-!
Verification of the audit-log change formatter and cascade tracker of the
payload-audit-log plugin.

The development shallowly embeds the two library modules:

* `change-formatter.ts` — `isUUID`, `isRelationshipField`, `deepEqual`,
  `extractMeaningfulChanges`, `formatChanges`, `shouldLogChanges`;
* `audit-context.ts` — the `AuditContextManager` registry
  (`createContext`, `getContext`, `markAsCascading`, `shouldLogOperation`,
  `clearContext`) and the request-level helpers (`initializeAuditContext`,
  `cleanupAuditContext`, `shouldLogAuditOperation`, `markDirectOperation`,
  `markCascadingOperation`).

JavaScript values are modelled by the tree type `JVal` below.  JavaScript
objects cannot repeat a key, so an object is an association list of fields
read through first-match lookup; `undefined` and `null` are distinct
constructors because the code distinguishes them (`change !== null` lets
`undefined` through, `JSON.stringify` drops `undefined`-valued fields).
Reference equality (`===`) on objects and arrays is modelled as `false`:
the diff engine compares two separately materialised snapshots, which are
never the same JavaScript reference.
-/

namespace AuditLog

/-- A JavaScript/JSON value as handled by the change formatter: `undefined`,
`null`, booleans, numbers (integral in every document the plugin sees),
strings, arrays, and objects as ordered association lists of fields. -/
inductive JVal where
  | undefined : JVal
  | null : JVal
  | bool (b : Bool) : JVal
  | num (n : Int) : JVal
  | str (s : String) : JVal
  | arr (elems : List JVal) : JVal
  | obj (fields : List (String × JVal)) : JVal

/-- JavaScript strict equality `===`.  Primitives compare by value; objects
and arrays compare by reference, and two separately built values are never
reference-equal, so those cases are `false`. -/
def strictEq : JVal → JVal → Bool
  | .undefined, .undefined => true
  | .null, .null => true
  | .bool a, .bool b => a == b
  | .num a, .num b => a == b
  | .str a, .str b => a == b
  | _, _ => false

/-- JavaScript truthiness (`Boolean(v)`). -/
def truthy : JVal → Bool
  | .undefined => false
  | .null => false
  | .bool b => b
  | .num n => n != 0
  | .str s => s != ""
  | .arr _ => true
  | .obj _ => true

/-- The loose test `v == null`, true exactly for `null` and `undefined`. -/
def isNullish : JVal → Bool
  | .undefined => true
  | .null => true
  | _ => false

/-- `typeof v` as a string.  `typeof null` is `"object"` in JavaScript. -/
def typeofStr : JVal → String
  | .undefined => "undefined"
  | .null => "object"
  | .bool _ => "boolean"
  | .num _ => "number"
  | .str _ => "string"
  | .arr _ => "object"
  | .obj _ => "object"

/-- Is the value the literal `null`? (`change !== null` in the source is the
negation of this; `undefined` passes that test.) -/
def isNull : JVal → Bool
  | .null => true
  | _ => false

/-- Field lookup in an object, `undefined` when the key is absent, exactly
as `obj[key]` behaves in JavaScript. -/
def lookupField : List (String × JVal) → String → JVal
  | [], _ => .undefined
  | (k, v) :: rest, key => if k == key then v else lookupField rest key

/-- Does the object have the key (`'id' in value` / `keys.includes(k)`)? -/
def hasKey (fields : List (String × JVal)) (key : String) : Bool :=
  fields.any (fun p => p.1 == key)

/-- The optional chain `v?.id`: `undefined` unless `v` is an object with an
`id` field.  Arrays and primitives have no `id` property, and the optional
chain short-circuits on `null`/`undefined`. -/
def idProp : JVal → JVal
  | .obj fields => lookupField fields "id"
  | _ => .undefined

theorem sizeOf_lookupField (fields : List (String × JVal)) (key : String) :
    sizeOf (lookupField fields key) < 1 + sizeOf fields := by
  induction fields with
  | nil => simp [lookupField]
  | cons p rest ih =>
      obtain ⟨k, v⟩ := p
      simp only [lookupField]
      split
      · simp
        omega
      · simp
        omega

/-- A hexadecimal digit, upper or lower case (the `/i` flag of the UUID and
object-id patterns). -/
def isHexDigit (c : Char) : Bool :=
  c.isDigit || ('a' ≤ c && c ≤ 'f') || ('A' ≤ c && c ≤ 'F')

/-- A character of the generic id pattern `[a-zA-Z0-9_-]`. -/
def isGenericIdChar (c : Char) : Bool :=
  c.isAlphanum || c == '_' || c == '-'

/-- The canonical 8-4-4-4-12 UUID shape over the character list:
36 characters, dashes at positions 8, 13, 18 and 23, hex elsewhere. -/
def uuidShape (cs : List Char) : Bool :=
  cs.length == 36 &&
    cs.enum.all (fun p =>
      if p.1 == 8 || p.1 == 13 || p.1 == 18 || p.1 == 23 then p.2 == '-'
      else isHexDigit p.2)

/-- The 24-hex-character legacy object-id shape. -/
def objectIdShape (cs : List Char) : Bool :=
  cs.length == 24 && cs.all isHexDigit

/-- The generic id pattern `^[a-zA-Z0-9_-]{8,}$`. -/
def genericIdShape (cs : List Char) : Bool :=
  decide (8 ≤ cs.length) && cs.all isGenericIdChar

/-- `isUUID` from `change-formatter.ts`: a string matching the UUID,
object-id, or generic long-token pattern. -/
def isUUID (s : String) : Bool :=
  uuidShape s.data || objectIdShape s.data || genericIdShape s.data

/-- `isRelationshipField` from `change-formatter.ts`.  A value looks like a
relationship when it is an id-shaped string, an object with an `id` field
('id' in an array or a primitive is false), or a non-empty array whose every
element is an id-shaped string or an object with an `id` field. -/
def isRelationshipField (_key : String) (value : JVal) : Bool :=
  match value with
  | .str s => isUUID s
  | .obj fields => hasKey fields "id"
  | .arr items =>
      decide (0 < items.length) &&
        items.all (fun item =>
          match item with
          | .str s => isUUID s
          | .obj fields => hasKey fields "id"
          | _ => false)
  | _ => false

/-- One character of a JSON string literal.  Quote and backslash are
escaped; the control-character escapes of full JSON are omitted, which
changes no comparison made in this development (the serialisation is used
only as an equality test, and every compared pair here is free of control
characters). -/
def escapeJsonChar (c : Char) : String :=
  if c == '"' then "\\\"" else if c == '\\' then "\\\\" else String.singleton c

/-- A JSON string literal with its surrounding quotes. -/
def quoteJson (s : String) : String :=
  "\"" ++ String.join (s.data.map escapeJsonChar) ++ "\""

mutual

/-- `JSON.stringify(v)`, used by `deepEqual` past its depth limit.  It is
`none` on `undefined` (where `JSON.stringify` yields no string);
`undefined`-valued fields are dropped from objects and serialised as `null`
inside arrays, as in JavaScript. -/
def jsonStringify : JVal → Option String
  | .undefined => none
  | .null => some "null"
  | .bool b => some (cond b "true" "false")
  | .num n => some (toString n)
  | .str s => some (quoteJson s)
  | .arr elems => some ("[" ++ ",".intercalate (jsonArrayParts elems) ++ "]")
  | .obj fields => some ("\x7b" ++ ",".intercalate (jsonObjectParts fields) ++ "\x7d")

/-- The serialised elements of an array (`undefined` becomes `"null"`). -/
def jsonArrayParts : List JVal → List String
  | [] => []
  | v :: rest => ((jsonStringify v).getD "null") :: jsonArrayParts rest

/-- The serialised `"key":value` fields of an object, dropping fields whose
value does not serialise. -/
def jsonObjectParts : List (String × JVal) → List String
  | [] => []
  | (k, v) :: rest =>
      match jsonStringify v with
      | none => jsonObjectParts rest
      | some s => (quoteJson k ++ ":" ++ s) :: jsonObjectParts rest

end

mutual

/-- `deepEqual(a, b, depth, maxDepth)` from `change-formatter.ts`.  Past the
depth limit it compares serialisations; otherwise strict equality first,
then `null`s, then `typeof`, then element-wise arrays or key-wise objects at
`depth + 1`.  Object keys are iterated in the first object's order and the
values read by lookup on both sides, the exact effect of the source's
`for (key of keysA) ... deepEqual(a[key], b[key])` since JavaScript objects
cannot repeat a key. -/
def deepEqual (a b : JVal) (depth maxDepth : Nat) : Bool :=
  if depth > maxDepth then
    jsonStringify a == jsonStringify b
  else if strictEq a b then
    true
  else if isNullish a || isNullish b then
    false
  else if typeofStr a != typeofStr b then
    false
  else
    match a, b with
    | .arr xs, .arr ys =>
        xs.length == ys.length && deepEqualList xs ys (depth + 1) maxDepth
    | .arr _, _ => false
    | _, .arr _ => false
    | .obj fsa, .obj fsb =>
        fsa.length == fsb.length &&
          deepEqualKeys (fsa.map Prod.fst) fsa fsb (depth + 1) maxDepth
    | _, _ => false
termination_by (sizeOf a, 1, 0)

/-- Element-wise comparison of two arrays of equal length (an exhausted
right-hand side reads as `undefined`, like `b[i]` out of range). -/
def deepEqualList (xs ys : List JVal) (depth maxDepth : Nat) : Bool :=
  match xs, ys with
  | [], _ => true
  | x :: rest, [] =>
      deepEqual x .undefined depth maxDepth && deepEqualList rest [] depth maxDepth
  | x :: rest, y :: ys' =>
      deepEqual x y depth maxDepth && deepEqualList rest ys' depth maxDepth
termination_by (1 + sizeOf xs, 0, 0)

/-- Key-wise comparison: each key of the first object must be present in
the second and carry a deeply equal value. -/
def deepEqualKeys (keys : List String) (fsa fsb : List (String × JVal))
    (depth maxDepth : Nat) : Bool :=
  match keys with
  | [] => true
  | k :: rest =>
      hasKey fsb k &&
        deepEqual (lookupField fsa k) (lookupField fsb k) depth maxDepth &&
        deepEqualKeys rest fsa fsb depth maxDepth
termination_by (1 + sizeOf fsa, 0, keys.length)
decreasing_by
  all_goals first
    | decreasing_tactic
    | (simp_wf
       have h := sizeOf_lookupField fsa k
       omega)

end

/-- The id extracted from an array element or field value:
`typeof item === 'string' ? item : item?.id`. -/
def itemId (item : JVal) : JVal :=
  match item with
  | .str s => .str s
  | _ => idProp item

/-- The `newValue.some((item, index) => ...)` content test of the array
branch of `extractMeaningfulChanges`: a string/number/boolean element is
compared strictly with its counterpart, any other element with `deepEqual`
at `depth + 1`. -/
def arrayItemsChanged (newItems oldItems : List JVal) (depth maxDepth : Nat) : Bool :=
  match newItems with
  | [] => false
  | item :: rest =>
      (match item with
       | .str _ => !strictEq item (oldItems.headD .undefined)
       | .num _ => !strictEq item (oldItems.headD .undefined)
       | .bool _ => !strictEq item (oldItems.headD .undefined)
       | _ => !deepEqual item (oldItems.headD .undefined) (depth + 1) maxDepth) ||
        arrayItemsChanged rest oldItems.tail depth maxDepth

/-- First-occurrence de-duplication, the order produced by
`Array.from(new Set([...keysA, ...keysB]))`. -/
def dedupFirstAux : List String → List String → List String
  | [], _ => []
  | x :: rest, found =>
      if found.contains x then dedupFirstAux rest found
      else x :: dedupFirstAux rest (x :: found)

/-- De-duplicate a key list keeping first occurrences in order. -/
def dedupFirst (l : List String) : List String :=
  dedupFirstAux l []

mutual

/-- `extractMeaningfulChanges(newValue, oldValue, depth, maxDepth,
excludeFields)` from `change-formatter.ts`.  Past the depth limit it
returns `null` (its own comment: do not include deep nested objects); then
`null` on deep equality; `newValue` across a nullish boundary or for
non-objects; the array branch with the id-set test; and for two objects the
per-key loop `emcKeys` over the de-duplicated union of keys. -/
def extractMeaningfulChanges (newValue oldValue : JVal) (depth maxDepth : Nat)
    (excludeFields : List String) : JVal :=
  if h : depth > maxDepth then
    .null
  else if deepEqual newValue oldValue depth maxDepth then
    .null
  else if isNullish newValue || isNullish oldValue then
    newValue
  else if typeofStr newValue != "object" || typeofStr oldValue != "object" then
    newValue
  else
    match newValue, oldValue with
    | .arr newItems, .arr oldItems =>
        if newItems.length != oldItems.length then .arr newItems
        else
          let newIds := (newItems.map itemId).filter truthy
          let oldIds := (oldItems.map itemId).filter truthy
          if newIds.length == oldIds.length &&
              newIds.all (fun i => oldIds.any (fun o => strictEq o i)) then
            .null
          else if arrayItemsChanged newItems oldItems depth maxDepth then
            .arr newItems
          else
            .null
    | .arr newItems, _ => .arr newItems
    | .obj _, .arr _ => newValue
    | .obj fsN, .obj fsO =>
        let allKeys := dedupFirst (fsN.map Prod.fst ++ fsO.map Prod.fst)
        let result :=
          emcKeys allKeys fsN fsO depth maxDepth excludeFields (Nat.le_of_not_lt h)
        if result.isEmpty then .null else .obj result
    | _, _ => newValue
termination_by (maxDepth + 1 - depth, 1, 0)

/-- The body of the `for (const key of allKeys)` loop of
`extractMeaningfulChanges`, producing the accumulated `result` entries in
key order: skip excluded keys, skip the string-vs-object same-id pair, for
relationship-shaped values record `{old, new}` only when both extracted ids
are truthy and differ, and otherwise recurse at `depth + 1`, keeping any
non-`null` result (`undefined` passes the `change !== null` test).  The
final proof argument records that the loop only runs below the depth
limit; it has no computational content. -/
def emcKeys (keys : List String) (fsN fsO : List (String × JVal))
    (depth maxDepth : Nat) (excludeFields : List String)
    (hdep : depth ≤ maxDepth) : List (String × JVal) :=
  match keys with
  | [] => []
  | key :: rest =>
      let tail := emcKeys rest fsN fsO depth maxDepth excludeFields hdep
      if excludeFields.contains key then tail
      else
        let newVal := lookupField fsN key
        let oldVal := lookupField fsO key
        if (typeofStr newVal == "string" && typeofStr oldVal == "object" &&
              strictEq (idProp oldVal) newVal) ||
            (typeofStr oldVal == "string" && typeofStr newVal == "object" &&
              strictEq (idProp newVal) oldVal) then
          tail
        else if isRelationshipField key newVal || isRelationshipField key oldVal then
          let newId := itemId newVal
          let oldId := itemId oldVal
          if truthy newId && truthy oldId && !strictEq newId oldId then
            (key, .obj [("old", oldId), ("new", newId)]) :: tail
          else
            tail
        else
          let change :=
            extractMeaningfulChanges newVal oldVal (depth + 1) maxDepth excludeFields
          if isNull change then tail else (key, change) :: tail
termination_by (maxDepth + 1 - depth, 0, keys.length)

end

/-- `Object.keys(v)`: field names of an object, index strings of an array
or a string, empty for primitives. -/
def keysOf : JVal → List String
  | .obj fields => fields.map Prod.fst
  | .arr elems => (List.range elems.length).map toString
  | .str s => (List.range s.data.length).map toString
  | _ => []

/-- Property access `v[key]` for the keys produced by `keysOf`: object
field lookup, element access for canonical numeric indices of arrays and
strings, `undefined` otherwise. -/
def propGet (v : JVal) (key : String) : JVal :=
  match v with
  | .obj fields => lookupField fields key
  | .arr elems =>
      match key.toNat? with
      | some i => elems.getD i .undefined
      | none => .undefined
  | .str s =>
      match key.toNat? with
      | some i =>
          match s.data[i]? with
          | some c => .str (String.singleton c)
          | none => .undefined
      | none => .undefined
  | _ => .undefined

/-- `ChangeFormatterOptions` from `change-formatter.ts`; `none` is an
absent (not spread-in) option key. -/
structure ChangeFormatterOptions where
  excludeFields : Option (List String) := none
  meaningfulChangesOnly : Option Bool := none
  maxDepth : Option Nat := none

/-- The `excludeFields` entry of `defaultChangeFormatterOptions`. -/
def defaultExcludeFields : List String :=
  ["id", "createdAt", "updatedAt", "createdBy", "updatedBy",
   "sessions", "password", "token", "secret", "hash", "salt",
   "lockUntil", "loginAttempts", "resetPasswordToken", "resetPasswordExpiration",
   "lastLogin", "lastLoginAt", "emailVerified", "emailVerificationToken",
   "emailVerificationExpiration", "forgotPasswordToken", "forgotPasswordExpiration"]

/-- `defaultChangeFormatterOptions` from `change-formatter.ts`. -/
def defaultChangeFormatterOptions : ChangeFormatterOptions :=
  { excludeFields := some defaultExcludeFields,
    meaningfulChangesOnly := some true,
    maxDepth := some 2 }

/-- The spread `{ ...defaultChangeFormatterOptions, ...options }`: a key
present in `options` wins, an absent key falls back to the default. -/
def mergeOptions (options : ChangeFormatterOptions) : ChangeFormatterOptions :=
  { excludeFields :=
      (options.excludeFields).orElse (fun _ => defaultChangeFormatterOptions.excludeFields),
    meaningfulChangesOnly :=
      (options.meaningfulChangesOnly).orElse
        (fun _ => defaultChangeFormatterOptions.meaningfulChangesOnly),
    maxDepth := (options.maxDepth).orElse (fun _ => defaultChangeFormatterOptions.maxDepth) }

/-- The expression `opts.maxDepth || 5`: an absent or zero (falsy)
`maxDepth` becomes 5. -/
def effectiveMaxDepth : Option Nat → Nat
  | none => 5
  | some 0 => 5
  | some (n + 1) => n + 1

/-- The body of the `for (const key of allKeys)` loop of `formatChanges`
for one key: skip excluded keys, skip the string-vs-object same-id pair,
then either keep a non-`null` `extractMeaningfulChanges` result as
`{old: oldValue, new: meaningfulChange}` (when `meaningfulChangesOnly`) or
fall back to a plain `deepEqual` test with both raw values. -/
def fcStep (newDoc oldDoc : JVal) (excl : List String) (meaningful : Bool)
    (maxDepth : Nat) (key : String) : Option (String × JVal) :=
  if excl.contains key then none
  else
    let newValue := propGet newDoc key
    let oldValue := propGet oldDoc key
    if (typeofStr newValue == "string" && typeofStr oldValue == "object" &&
          strictEq (idProp oldValue) newValue) ||
        (typeofStr oldValue == "string" && typeofStr newValue == "object" &&
          strictEq (idProp newValue) oldValue) then
      none
    else if meaningful then
      let meaningfulChange := extractMeaningfulChanges newValue oldValue 0 maxDepth excl
      if isNull meaningfulChange then none
      else some (key, .obj [("old", oldValue), ("new", meaningfulChange)])
    else if !deepEqual newValue oldValue 0 maxDepth then
      some (key, .obj [("old", oldValue), ("new", newValue)])
    else
      none

/-- `formatChanges(newDoc, oldDoc, options)` from `change-formatter.ts`.
A falsy `oldDoc` (a creation) returns `newDoc` verbatim; otherwise the loop
over the de-duplicated union of keys assembles the change map, and the
result is that map, or `null` when no key contributed. -/
def formatChanges (newDoc oldDoc : JVal) (options : ChangeFormatterOptions) : JVal :=
  let opts := mergeOptions options
  if !truthy oldDoc then newDoc
  else
    let allKeys := dedupFirst (keysOf newDoc ++ keysOf oldDoc)
    let changes := allKeys.filterMap
      (fcStep newDoc oldDoc (opts.excludeFields.getD [])
        (opts.meaningfulChangesOnly == some true) (effectiveMaxDepth opts.maxDepth))
    if changes.isEmpty then .null else .obj changes

/-- `shouldLogChanges(changes, minChanges)` from `change-formatter.ts`:
`false` on a `null` change-set, otherwise the key count must reach
`minChanges` (default 1). -/
def shouldLogChanges (changes : Option (List (String × JVal))) (minChanges : Int) : Bool :=
  match changes with
  | none => false
  | some fields => decide (minChanges ≤ (fields.length : Int))

/-- `AuditContext` from `audit-context.ts`.  Every field of the interface
is optional; `timestamp` is set from `Date.now()`, which no operation ever
reads, and is modelled as the constant 0. -/
structure AuditContext where
  sourceCollection : Option String := none
  sourceDocumentId : Option String := none
  isDirectOperation : Option Bool := none
  timestamp : Nat := 0
  operationStack : Option (List String) := none
deriving Repr, DecidableEq

/-- The `contexts` map of `AuditContextManager`, as an association list
keyed by request id.  (The manager's second map, `requestContexts`, is only
ever written and cleared, never read by any operation modelled here, and is
omitted.) -/
abbrev ContextStore := List (String × AuditContext)

/-- `Map.get`. -/
def storeGet : ContextStore → String → Option AuditContext
  | [], _ => none
  | (k, v) :: rest, key => if k == key then some v else storeGet rest key

/-- `Map.set`: replace the binding if the key is present, append it
otherwise. -/
def storeSet : ContextStore → String → AuditContext → ContextStore
  | [], key, ctx => [(key, ctx)]
  | (k, v) :: rest, key, ctx =>
      if k == key then (k, ctx) :: rest else (k, v) :: storeSet rest key ctx

/-- `Map.delete`. -/
def storeDelete : ContextStore → String → ContextStore
  | [], _ => []
  | (k, v) :: rest, key =>
      if k == key then storeDelete rest key else (k, v) :: storeDelete rest key

/-- `AuditContextManager.createContext`: insert a fresh context with
`isDirectOperation = true` and an empty `operationStack`, returning the
updated registry and the context. -/
def createContext (store : ContextStore) (requestId : String)
    (sourceCollection sourceDocumentId : Option String) : ContextStore × AuditContext :=
  let context : AuditContext :=
    { sourceCollection := sourceCollection,
      sourceDocumentId := sourceDocumentId,
      isDirectOperation := some true,
      timestamp := 0,
      operationStack := some [] }
  (storeSet store requestId context, context)

/-- `AuditContextManager.getContext`. -/
def getContext (store : ContextStore) (requestId : String) : Option AuditContext :=
  storeGet store requestId

/-- `AuditContextManager.markAsCascading`: when a context exists, clear
`isDirectOperation` and push `collection:documentId` onto the operation
stack (creating the stack if it was absent); silently no-op otherwise. -/
def markAsCascading (store : ContextStore) (requestId collection documentId : String) :
    ContextStore :=
  match storeGet store requestId with
  | none => store
  | some context =>
      storeSet store requestId
        { context with
          isDirectOperation := some false,
          operationStack :=
            some (context.operationStack.getD [] ++ [collection ++ ":" ++ documentId]) }

/-- The cascading decision options of `shouldLogOperation`; `none` is an
absent key. -/
structure CascadeOptions where
  allowCascading : Option Bool := none
  maxCascadeDepth : Option Nat := none

/-- The expression `options.maxCascadeDepth || 1`: an absent or zero
(falsy) `maxCascadeDepth` becomes the default 1. -/
def effectiveCascadeDepth : Option Nat → Nat
  | none => 1
  | some 0 => 1
  | some (n + 1) => n + 1

/-- `AuditContextManager.shouldLogOperation`: `true` without a context
(fail-open); `true` when the queried `(collection, documentId)` is the
recorded source; `false` when cascading is not allowed; otherwise `false`
exactly when the operation stack has reached
`options.maxCascadeDepth || 1`. -/
def shouldLogOperation (store : ContextStore) (requestId collection documentId : String)
    (options : CascadeOptions) : Bool :=
  match storeGet store requestId with
  | none => true
  | some context =>
      if context.sourceCollection == some collection &&
          context.sourceDocumentId == some documentId then
        true
      else if !(options.allowCascading == some true) then
        false
      else
        let maxDepth := effectiveCascadeDepth options.maxCascadeDepth
        match context.operationStack with
        | some stack => if stack.length ≥ maxDepth then false else true
        | none => true

/-- `AuditContextManager.clearContext`. -/
def clearContext (store : ContextStore) (requestId : String) : ContextStore :=
  storeDelete store requestId

/-- The request object as the audit hooks see it: possibly carrying an
`auditRequestId`. -/
structure AuditRequest where
  auditRequestId : Option String := none
deriving Repr, DecidableEq

/-- `initializeAuditContext(req)` from `audit-context.ts`: generate a fresh
request id (the `Date.now`/random generator is modelled by the
`generatedId` argument), record it on the request, and return it.  The
function touches only the request — it never consults or updates the
registry, which accordingly does not appear in its type. -/
def initializeAuditContext (req : AuditRequest) (generatedId : String) :
    AuditRequest × String :=
  ({ req with auditRequestId := some generatedId }, generatedId)

/-- `cleanupAuditContext(req)`: clear the context of the request's id, if
the request carries one. -/
def cleanupAuditContext (store : ContextStore) (req : AuditRequest) : ContextStore :=
  match req.auditRequestId with
  | none => store
  | some requestId => clearContext store requestId

/-- `shouldLogAuditOperation(req, collection, documentId, options)`:
fail-open without a request id, otherwise the manager's decision. -/
def shouldLogAuditOperation (store : ContextStore) (req : AuditRequest)
    (collection documentId : String) (options : CascadeOptions) : Bool :=
  match req.auditRequestId with
  | none => true
  | some requestId => shouldLogOperation store requestId collection documentId options

/-- `markDirectOperation(req, collection, documentId)`: update the source
fields of the existing context, or create one with that source. -/
def markDirectOperation (store : ContextStore) (req : AuditRequest)
    (collection documentId : String) : ContextStore :=
  match req.auditRequestId with
  | none => store
  | some requestId =>
      match getContext store requestId with
      | some context =>
          storeSet store requestId
            { context with
              sourceCollection := some collection,
              sourceDocumentId := some documentId,
              isDirectOperation := some true }
      | none => (createContext store requestId (some collection) (some documentId)).1

/-- `markCascadingOperation(req, collection, documentId)`. -/
def markCascadingOperation (store : ContextStore) (req : AuditRequest)
    (collection documentId : String) : ContextStore :=
  match req.auditRequestId with
  | none => store
  | some requestId => markAsCascading store requestId collection documentId

/-- The top-level field names of a change-set value (empty for `null`). -/
def changeKeys : JVal → List String
  | .obj fields => fields.map Prod.fst
  | _ => []

/-!
### General lemmas about the differ
-/

theorem hasKey_of_mem_keys (fs : List (String × JVal)) (k : String)
    (hk : k ∈ fs.map Prod.fst) : hasKey fs k = true := by
  simp only [hasKey, List.any_eq_true]
  obtain ⟨p, hp, he⟩ := List.mem_map.mp hk
  exact ⟨p, hp, by simp [he]⟩

mutual

/-- `deepEqual` is reflexive: comparing a value with itself answers `true`
at every depth (past the cutoff both serialisations coincide; below it the
structural walk revisits identical subvalues). -/
theorem deepEqual_refl (v : JVal) (d m : Nat) : deepEqual v v d m = true := by
  cases v with
  | undefined => rw [deepEqual] <;> simp [strictEq]
  | null => rw [deepEqual] <;> simp [strictEq]
  | bool b => rw [deepEqual] <;> simp [strictEq]
  | num n => rw [deepEqual] <;> simp [strictEq]
  | str s => rw [deepEqual] <;> simp [strictEq]
  | arr xs =>
      rw [deepEqual]
      simp [strictEq, isNullish, typeofStr, deepEqualList_refl xs (d + 1) m]
  | obj fs =>
      rw [deepEqual]
      simp [strictEq, isNullish, typeofStr,
        deepEqualKeys_refl (fs.map Prod.fst) fs (d + 1) m
          (fun k hk => hasKey_of_mem_keys fs k hk)]
termination_by (sizeOf v, 1, 0)

theorem deepEqualList_refl (xs : List JVal) (d m : Nat) :
    deepEqualList xs xs d m = true := by
  match xs with
  | [] => rw [deepEqualList]
  | x :: rest =>
      rw [deepEqualList]
      simp [deepEqual_refl x d m, deepEqualList_refl rest d m]
termination_by (1 + sizeOf xs, 0, 0)

theorem deepEqualKeys_refl (keys : List String) (fs : List (String × JVal)) (d m : Nat)
    (hk : ∀ k ∈ keys, hasKey fs k = true) : deepEqualKeys keys fs fs d m = true := by
  match keys with
  | [] => rw [deepEqualKeys]
  | k :: rest =>
      rw [deepEqualKeys]
      simp [hk k (by simp), deepEqual_refl (lookupField fs k) d m,
        deepEqualKeys_refl rest fs d m (fun x hx => hk x (by simp [hx]))]
termination_by (1 + sizeOf fs, 0, keys.length)
decreasing_by
  all_goals first
    | decreasing_tactic
    | (simp_wf
       have h := sizeOf_lookupField fs k
       omega)

end

/-- Comparing a value with itself yields no change. -/
theorem extractMeaningfulChanges_self (v : JVal) (d m : Nat) (excl : List String) :
    extractMeaningfulChanges v v d m excl = JVal.null := by
  rw [extractMeaningfulChanges]
  by_cases h : d > m
  · simp [h]
  · simp [h, deepEqual_refl v d m]

/-- Past the depth limit the differ reports no change, whatever the pair of
values. -/
theorem extractMeaningfulChanges_cutoff (n o : JVal) (d m : Nat) (excl : List String)
    (h : m < d) : extractMeaningfulChanges n o d m excl = JVal.null := by
  rw [extractMeaningfulChanges]
  simp [show d > m from h]

/-- A contribution of the `formatChanges` loop is keyed by the key that
produced it. -/
theorem fcStep_fst (newDoc oldDoc : JVal) (excl : List String) (mf : Bool) (md : Nat)
    (key : String) (p : String × JVal)
    (h : fcStep newDoc oldDoc excl mf md key = some p) : p.1 = key := by
  unfold fcStep at h
  dsimp only at h
  split_ifs at h
  all_goals
    first
      | exact Option.noConfusion h
      | (obtain hp := Option.some_inj.mp h
         rw [← hp])

/-- On identical documents every key of the `formatChanges` loop
contributes nothing. -/
theorem fcStep_self (doc : JVal) (excl : List String) (mf : Bool) (md : Nat)
    (key : String) : fcStep doc doc excl mf md key = none := by
  unfold fcStep
  split_ifs with h1 h2 <;>
    simp_all [extractMeaningfulChanges_self, isNull, deepEqual_refl]

/-- `formatChanges` finds nothing to record on two identical documents. -/
theorem formatChanges_self (fs : List (String × JVal)) (options : ChangeFormatterOptions) :
    formatChanges (.obj fs) (.obj fs) options = JVal.null := by
  unfold formatChanges
  simp [truthy, fcStep_self]

/-- A key whose loop step contributes nothing is absent from the keys of
the assembled change-set. -/
theorem not_mem_changeKeys_formatChanges (fsN fsO : List (String × JVal))
    (options : ChangeFormatterOptions) (f : String)
    (hstep : fcStep (.obj fsN) (.obj fsO) ((mergeOptions options).excludeFields.getD [])
        ((mergeOptions options).meaningfulChangesOnly == some true)
        (effectiveMaxDepth (mergeOptions options).maxDepth) f = none) :
    f ∉ changeKeys (formatChanges (.obj fsN) (.obj fsO) options) := by
  unfold formatChanges
  dsimp only
  simp only [truthy]
  rw [if_neg (by simp)]
  split
  · simp [changeKeys]
  · simp only [changeKeys]
    intro hmem
    obtain ⟨p, hp, hpf⟩ := List.mem_map.mp hmem
    obtain ⟨a, _, ha⟩ := List.mem_filterMap.mp hp
    have hfst := fcStep_fst _ _ _ _ _ _ _ ha
    rw [hfst] at hpf
    rw [hpf] at ha
    rw [hstep] at ha
    exact Option.noConfusion ha

/-!
### General lemmas about the cascade tracker
-/

theorem storeGet_storeSet_self (s : ContextStore) (k : String) (ctx : AuditContext) :
    storeGet (storeSet s k ctx) k = some ctx := by
  induction s with
  | nil => simp [storeSet, storeGet]
  | cons p rest ih =>
      obtain ⟨k', v⟩ := p
      by_cases h : k' == k <;> simp [storeSet, storeGet, h, ih]

/-- After `markDirectOperation`, the request's context exists and records
the marked `(collection, documentId)` as its source, whether the context
was updated or freshly created. -/
theorem markDirect_source (store : ContextStore) (req : AuditRequest) (rid c0 id0 : String)
    (hreq : req.auditRequestId = some rid) :
    ∃ ctx, storeGet (markDirectOperation store req c0 id0) rid = some ctx ∧
      ctx.sourceCollection = some c0 ∧ ctx.sourceDocumentId = some id0 := by
  unfold markDirectOperation
  simp only [hreq]
  cases hg : getContext store rid with
  | some context =>
      simp only [hg]
      exact ⟨_, storeGet_storeSet_self store rid _, rfl, rfl⟩
  | none =>
      simp only [hg]
      unfold createContext
      dsimp only
      exact ⟨_, storeGet_storeSet_self store rid _, rfl, rfl⟩

/-- `markCascadingOperation` never touches the recorded source. -/
theorem markCascading_source (s : ContextStore) (req : AuditRequest)
    (rid c i c0 id0 : String) (hreq : req.auditRequestId = some rid)
    (h : ∃ ctx, storeGet s rid = some ctx ∧
      ctx.sourceCollection = some c0 ∧ ctx.sourceDocumentId = some id0) :
    ∃ ctx, storeGet (markCascadingOperation s req c i) rid = some ctx ∧
      ctx.sourceCollection = some c0 ∧ ctx.sourceDocumentId = some id0 := by
  obtain ⟨ctx, hget, h1, h2⟩ := h
  unfold markCascadingOperation markAsCascading
  simp only [hreq, hget]
  exact ⟨_, storeGet_storeSet_self s rid _, by simp [h1], by simp [h2]⟩

/-- The recorded source survives any sequence of cascading marks. -/
theorem foldl_cascading_source (casc : List (String × String)) (s : ContextStore)
    (req : AuditRequest) (rid c0 id0 : String) (hreq : req.auditRequestId = some rid)
    (h : ∃ ctx, storeGet s rid = some ctx ∧
      ctx.sourceCollection = some c0 ∧ ctx.sourceDocumentId = some id0) :
    ∃ ctx, storeGet (casc.foldl (fun st p => markCascadingOperation st req p.1 p.2) s) rid
        = some ctx ∧
      ctx.sourceCollection = some c0 ∧ ctx.sourceDocumentId = some id0 := by
  induction casc generalizing s with
  | nil => exact h
  | cons p rest ih =>
      exact ih _ (markCascading_source s req rid p.1 p.2 c0 id0 hreq h)

/-- A key that stands in the populated/unpopulated relationship
configuration (an object carrying `id: I` on one side, the bare string `I`
on the other) is skipped by the `formatChanges` loop. -/
theorem fcStep_skip_of_rel (fsN fsO : List (String × JVal)) (excl : List String)
    (mf : Bool) (md : Nat) (f I : String)
    (h : (∃ g, lookupField fsN f = JVal.obj g ∧ lookupField g "id" = JVal.str I ∧
            lookupField fsO f = JVal.str I) ∨
         (∃ g, lookupField fsO f = JVal.obj g ∧ lookupField g "id" = JVal.str I ∧
            lookupField fsN f = JVal.str I)) :
    fcStep (.obj fsN) (.obj fsO) excl mf md f = none := by
  unfold fcStep
  dsimp only
  split_ifs with h1 h2 <;> try rfl
  all_goals
    exfalso
    apply h2
    rcases h with ⟨g, hn, hid, ho⟩ | ⟨g, ho, hid, hn⟩ <;>
      simp [propGet, hn, ho, typeofStr, idProp, hid, strictEq]

/-!
### The claims
-/

/-- C1, counterexample.  The claim says a change nested strictly deeper
than `maxDepth` makes `formatChanges` report the containing subtree as a
single opaque replacement (a non-null change-set carrying the whole new
subtree).  With `maxDepth = 1` and documents differing only at the leaf
`a.p.x` (nesting depth 3), `formatChanges` returns `null`: the deep change
is dropped outright, so no replacement (and no change at all) is
reported. -/
theorem claim1_counterexample :
    formatChanges (.obj [("a", .obj [("p", .obj [("x", .num 2)])])])
      (.obj [("a", .obj [("p", .obj [("x", .num 1)])])])
      { excludeFields := some [], meaningfulChangesOnly := some true, maxDepth := some 1 }
      = JVal.null := by
  simp [formatChanges, mergeOptions, effectiveMaxDepth, truthy, keysOf, dedupFirst,
    dedupFirstAux, fcStep, propGet, lookupField, extractMeaningfulChanges, emcKeys,
    deepEqual, deepEqualKeys, deepEqualList, strictEq, isNullish, typeofStr, isNull,
    isRelationshipField, isUUID, idProp, hasKey, itemId, uuidShape, objectIdShape,
    genericIdShape, jsonStringify, quoteJson, escapeJsonChar, Option.orElse]

/-- C1, amended.  Once `depth` exceeds `maxDepth`, `extractMeaningfulChanges`
returns `null` — no change — for every pair of values, so a difference
confined strictly below the depth limit is dropped from the change-set
(here for any two leaf numbers under two levels of nesting with
`maxDepth = 1`), not reported as an opaque replacement of the containing
subtree. -/
theorem claim1_depth_cutoff :
    (∀ (n o : JVal) (d m : Nat) (excl : List String), m < d →
      extractMeaningfulChanges n o d m excl = JVal.null) ∧
    (∀ q1 q2 : Int,
      formatChanges (.obj [("a", .obj [("p", .obj [("x", .num q1)])])])
        (.obj [("a", .obj [("p", .obj [("x", .num q2)])])])
        { excludeFields := some [], meaningfulChangesOnly := some true, maxDepth := some 1 }
        = JVal.null) := by
  constructor
  · exact fun n o d m excl h => extractMeaningfulChanges_cutoff n o d m excl h
  · intro q1 q2
    by_cases hq : q1 = q2
    · subst hq
      exact formatChanges_self _ _
    · cases hb : (jsonStringify (JVal.num q1) == jsonStringify (JVal.num q2)) <;>
        simp [formatChanges, mergeOptions, effectiveMaxDepth, truthy, keysOf,
          dedupFirst, dedupFirstAux, fcStep, propGet, lookupField,
          extractMeaningfulChanges, emcKeys, deepEqual, deepEqualKeys, deepEqualList,
          strictEq, isNullish, typeofStr, isNull, isRelationshipField, isUUID, idProp,
          hasKey, itemId, uuidShape, objectIdShape, genericIdShape, Option.orElse,
          hb, hq]

/-- C1, witness: the depth-cutoff part of `claim1_depth_cutoff` applied at
depth 3 with limit 2. -/
theorem claim1_witness :
    2 < 3 ∧ extractMeaningfulChanges (.str "a") (.str "b") 3 2 [] = JVal.null :=
  ⟨by decide, claim1_depth_cutoff.1 (.str "a") (.str "b") 3 2 [] (by decide)⟩

/-- C2, counterexample.  The claim says that with `allowCascading = true`
and `maxCascadeDepth = N` supplied, a non-source operation logs exactly
when the stack length `L` is below `N`; in particular `N = 0` should make
every non-source mutation yield `false`.  But `maxCascadeDepth: 0` is falsy
and replaced by the default 1 (`options.maxCascadeDepth || 1`), so with
`L = 0` and `N = 0` the decision is `true`, not `false`. -/
theorem claim2_counterexample :
    shouldLogOperation
      [("t", { sourceCollection := some "a", sourceDocumentId := some "1",
               isDirectOperation := some true, timestamp := 0,
               operationStack := some [] })]
      "t" "b" "2"
      { allowCascading := some true, maxCascadeDepth := some 0 } = true := by
  decide

/-- C2, amended.  For a context whose recorded source differs from the
queried `(collection, documentId)`, with `allowCascading = true` the
decision is `false` exactly when the operation-stack length reaches the
effective depth `options.maxCascadeDepth || 1` — so an unset or zero
`maxCascadeDepth` behaves as 1, and for an effective depth `N ≥ 1` the
`N`-th distinct cascading mutation (stack length `N - 1`) still logs while
the `(N+1)`-th does not. -/
theorem claim2_cascade_boundary (store : ContextStore)
    (t c i : String) (ctx : AuditContext) (stack : List String) (opts : CascadeOptions)
    (hctx : storeGet store t = some ctx)
    (hsrc : ¬(ctx.sourceCollection = some c ∧ ctx.sourceDocumentId = some i))
    (hstk : ctx.operationStack = some stack)
    (hac : opts.allowCascading = some true) :
    shouldLogOperation store t c i opts
      = decide (stack.length < effectiveCascadeDepth opts.maxCascadeDepth) := by
  unfold shouldLogOperation
  simp only [hctx, hac, hstk]
  rw [if_neg (by simp only [Bool.and_eq_true, beq_iff_eq]; exact hsrc)]
  rw [if_neg (by simp)]
  by_cases hl : effectiveCascadeDepth opts.maxCascadeDepth ≤ stack.length
  · simp [hl, Nat.not_lt.mpr hl]
  · simp [hl, Nat.lt_of_not_le hl]

/-- C2, witness: `claim2_cascade_boundary` at a context with one stacked
cascading operation and `maxCascadeDepth = 2` (the second cascading
mutation still logs). -/
theorem claim2_witness :
    shouldLogOperation
      [("t", { sourceCollection := some "a", sourceDocumentId := some "1",
               isDirectOperation := some false, timestamp := 0,
               operationStack := some ["c:1"] })]
      "t" "b" "2"
      { allowCascading := some true, maxCascadeDepth := some 2 } = true := by
  have h := claim2_cascade_boundary
    [("t", { sourceCollection := some "a", sourceDocumentId := some "1",
             isDirectOperation := some false, timestamp := 0,
             operationStack := some ["c:1"] })]
    "t" "b" "2"
    { sourceCollection := some "a", sourceDocumentId := some "1",
      isDirectOperation := some false, timestamp := 0,
      operationStack := some ["c:1"] }
    ["c:1"]
    { allowCascading := some true, maxCascadeDepth := some 2 }
    (by decide) (by decide) rfl rfl
  exact h.trans (by decide)

/-- C3, counterexample.  The claim says `initializeContext` on an
uninitialized token allocates a tracking context retrievable from the
registry.  It does not: starting from an empty registry, the registry —
which `initializeAuditContext` never touches (it only writes the generated
id onto the request) — still has no context for the token it returns. -/
theorem claim3_counterexample :
    getContext ([] : ContextStore)
      ((initializeAuditContext { auditRequestId := none } "req1").2) = none := by
  rfl

/-- C3, amended.  `initializeAuditContext` only records the generated
request id on the request object and returns that id; it allocates no
tracking context (the registry is not consulted or modified — a context
first appears in the registry when `markDirectOperation` creates one). -/
theorem claim3_initialize_allocates_nothing (req : AuditRequest) (generatedId : String) :
    initializeAuditContext req generatedId
      = ({ auditRequestId := some generatedId }, generatedId) := rfl

/-- C4, counterexample.  The claim says a reference-shaped key produces a
change record exactly when the extracted identifiers differ, *including
when one side has no identifier*.  Here the new value carries
`id: "aaaaaaaaaaaa"` while the old value has no `id` at all — the
identifiers certainly differ — yet the differ reports no change: the
source records a change only when *both* ids are truthy
(`newId && oldId && newId !== oldId`). -/
theorem claim4_counterexample :
    extractMeaningfulChanges
      (.obj [("ref", .obj [("id", .str "aaaaaaaaaaaa")])])
      (.obj [("ref", .obj [("name", .str "x")])]) 0 5 [] = JVal.null := by
  simp [extractMeaningfulChanges, emcKeys, deepEqual, deepEqualKeys, deepEqualList,
    strictEq, isNullish, typeofStr, isNull, isRelationshipField, isUUID, idProp,
    hasKey, itemId, truthy, lookupField, dedupFirst, dedupFirstAux,
    uuidShape, objectIdShape, genericIdShape]

/-- C4, amended.  In the keyed-map comparison, a key whose value is
reference-shaped on either side — an id-shaped string, an object carrying
an `id` field, or an array of such values — is compared only through the
extracted identifiers (`typeof v === 'string' ? v : v?.id`): a
`{old: oldId, new: newId}` record is produced exactly when *both*
identifiers are present (truthy) and differ, and the key is skipped
otherwise — in particular when either side lacks an identifier (an array's
`?.id` is always `undefined`), even though the values themselves differ.
The first conjunct characterises the loop step for arbitrary documents,
key, position, depth and exclusion list, so it covers every
reference-shaped value at once; the remaining conjuncts show the visible
effect at the differ's entry: id-objects on both sides, same id with
different content (skipped: only the ids are compared), and a side with no
identifier (skipped despite the difference). -/
theorem claim4_reference_id_comparison :
    (∀ (k : String) (rest : List String) (fsN fsO : List (String × JVal))
        (d m : Nat) (excl : List String) (hdep : d ≤ m),
      excl.contains k = false →
      (typeofStr (lookupField fsN k) == "string" &&
            typeofStr (lookupField fsO k) == "object" &&
            strictEq (idProp (lookupField fsO k)) (lookupField fsN k) ||
          typeofStr (lookupField fsO k) == "string" &&
            typeofStr (lookupField fsN k) == "object" &&
            strictEq (idProp (lookupField fsN k)) (lookupField fsO k)) = false →
      (isRelationshipField k (lookupField fsN k) ||
          isRelationshipField k (lookupField fsO k)) = true →
      emcKeys (k :: rest) fsN fsO d m excl hdep
        = (if truthy (itemId (lookupField fsN k)) && truthy (itemId (lookupField fsO k)) &&
              !strictEq (itemId (lookupField fsN k)) (itemId (lookupField fsO k)) then
             (k, JVal.obj [("old", itemId (lookupField fsO k)),
                            ("new", itemId (lookupField fsN k))])
               :: emcKeys rest fsN fsO d m excl hdep
           else emcKeys rest fsN fsO d m excl hdep)) ∧
    (∀ (k newId oldId : String) (m : Nat), 2 ≤ m →
      extractMeaningfulChanges (.obj [(k, .obj [("id", .str newId)])])
        (.obj [(k, .obj [("id", .str oldId)])]) 0 m []
        = (if newId ≠ oldId ∧ newId ≠ "" ∧ oldId ≠ "" then
             .obj [(k, .obj [("old", .str oldId), ("new", .str newId)])]
           else .null)) ∧
    (∀ (k I a b : String) (m : Nat), 2 ≤ m →
      extractMeaningfulChanges
        (.obj [(k, .obj [("id", .str I), ("name", .str a)])])
        (.obj [(k, .obj [("id", .str I), ("name", .str b)])]) 0 m [] = JVal.null) ∧
    (∀ (k newId other : String) (m : Nat),
      extractMeaningfulChanges (.obj [(k, .obj [("id", .str newId)])])
        (.obj [(k, .obj [("name", .str other)])]) 0 m [] = JVal.null) := by
  refine ⟨?_, ?_, ?_, ?_⟩
  · intro k rest fsN fsO d m excl hdep hexcl hskip hrel
    rw [emcKeys]
    dsimp only
    simp only [hexcl, hskip, hrel]
    simp
  · intro k newId oldId m hm
    have hg0 : ¬(0 > m) := by omega
    have hg1 : ¬(1 > m) := by omega
    have hg2 : ¬(2 > m) := by omega
    by_cases h1 : newId = oldId
    · subst h1
      simp [extractMeaningfulChanges_self]
    · by_cases h2 : newId = ""
      · subst h2
        simp [extractMeaningfulChanges, emcKeys, deepEqual, deepEqualKeys, deepEqualList,
          strictEq, isNullish, typeofStr, isNull, isRelationshipField, isUUID, idProp,
          hasKey, itemId, truthy, lookupField, dedupFirst, dedupFirstAux,
          uuidShape, objectIdShape, genericIdShape, hg0, hg1, hg2, h1, Ne.symm h1]
      · by_cases h3 : oldId = ""
        · subst h3
          simp [extractMeaningfulChanges, emcKeys, deepEqual, deepEqualKeys, deepEqualList,
            strictEq, isNullish, typeofStr, isNull, isRelationshipField, isUUID, idProp,
            hasKey, itemId, truthy, lookupField, dedupFirst, dedupFirstAux,
            uuidShape, objectIdShape, genericIdShape, hg0, hg1, hg2, h1, h2]
        · simp [extractMeaningfulChanges, emcKeys, deepEqual, deepEqualKeys, deepEqualList,
            strictEq, isNullish, typeofStr, isNull, isRelationshipField, isUUID, idProp,
            hasKey, itemId, truthy, lookupField, dedupFirst, dedupFirstAux,
            uuidShape, objectIdShape, genericIdShape, hg0, hg1, hg2, h1, h2, h3]
  · intro k I a b m hm
    have hg0 : ¬(0 > m) := by omega
    have hg1 : ¬(1 > m) := by omega
    have hg2 : ¬(2 > m) := by omega
    by_cases hab : a = b
    · subst hab
      exact extractMeaningfulChanges_self _ _ _ _
    · simp [extractMeaningfulChanges, emcKeys, deepEqual, deepEqualKeys, deepEqualList,
        strictEq, isNullish, typeofStr, isNull, isRelationshipField, isUUID, idProp,
        hasKey, itemId, truthy, lookupField, dedupFirst, dedupFirstAux,
        uuidShape, objectIdShape, genericIdShape, hg0, hg1, hg2, hab]
  · intro k newId other m
    have hg0 : ¬(0 > m) := by omega
    simp [extractMeaningfulChanges, emcKeys, deepEqual, deepEqualKeys, deepEqualList,
      strictEq, isNullish, typeofStr, isNull, isRelationshipField, isUUID, idProp,
      hasKey, itemId, truthy, lookupField, dedupFirst, dedupFirstAux,
      uuidShape, objectIdShape, genericIdShape, hg0]

/-- C4, witness: the loop-step conjunct of `claim4_reference_id_comparison`
applied to a key holding two distinct id-shaped strings — one of the
reference shapes the branch handles — where the record is produced. -/
theorem claim4_witness :
    emcKeys ["ref"] [("ref", .str "aaaaaaaa1111")] [("ref", .str "bbbbbbbb2222")]
        0 5 [] (by decide)
      = [("ref", JVal.obj [("old", .str "bbbbbbbb2222"), ("new", .str "aaaaaaaa1111")])] := by
  have h := claim4_reference_id_comparison.1 "ref" [] [("ref", .str "aaaaaaaa1111")]
    [("ref", .str "bbbbbbbb2222")] 0 5 [] (by decide) (by decide) (by decide) (by decide)
  rw [h]
  simp [itemId, idProp, lookupField, truthy, strictEq, emcKeys]

/-- C5: a top-level field whose one side is the identifier string `I` and
whose other side is a keyed map carrying `id: I` never appears in the
change-set of `formatChanges`, for every pair of documents and every
configuration; in particular Scenario B — `before = {author: "u1"}`,
`after = {author: {id: "u1", name: "X"}}` — produces `null`. -/
theorem claim5_relationship_collapse :
    (∀ (fsN fsO : List (String × JVal)) (options : ChangeFormatterOptions) (f I : String),
      ((∃ g, lookupField fsN f = JVal.obj g ∧ lookupField g "id" = JVal.str I ∧
              lookupField fsO f = JVal.str I) ∨
       (∃ g, lookupField fsO f = JVal.obj g ∧ lookupField g "id" = JVal.str I ∧
              lookupField fsN f = JVal.str I)) →
      f ∉ changeKeys (formatChanges (.obj fsN) (.obj fsO) options)) ∧
    formatChanges (.obj [("author", .obj [("id", .str "u1"), ("name", .str "X")])])
      (.obj [("author", .str "u1")]) {} = JVal.null := by
  constructor
  · intro fsN fsO options f I h
    exact not_mem_changeKeys_formatChanges fsN fsO options f
      (fcStep_skip_of_rel fsN fsO _ _ _ f I h)
  · simp [formatChanges, mergeOptions, defaultChangeFormatterOptions, defaultExcludeFields,
      effectiveMaxDepth, truthy, keysOf, dedupFirst, dedupFirstAux, fcStep, propGet,
      lookupField, strictEq, isNullish, typeofStr, isNull, idProp, Option.orElse]

/-- C5, witness: `claim5_relationship_collapse` at Scenario B — the
`author` field is absent from the change-set. -/
theorem claim5_witness :
    "author" ∉ changeKeys
      (formatChanges (.obj [("author", .obj [("id", .str "u1"), ("name", .str "X")])])
        (.obj [("author", .str "u1")]) {}) :=
  claim5_relationship_collapse.1
    [("author", .obj [("id", .str "u1"), ("name", .str "X")])]
    [("author", .str "u1")] {} "author" "u1"
    (Or.inl ⟨[("id", .str "u1"), ("name", .str "X")], rfl, rfl, rfl⟩)

/-- C6: `formatChanges(X, X, cfg)` records nothing for every document `X`
and every configuration — every field compares equal to itself, so no key
contributes and the result is `null`. -/
theorem claim6_idempotence (fs : List (String × JVal)) (options : ChangeFormatterOptions) :
    formatChanges (.obj fs) (.obj fs) options = JVal.null :=
  formatChanges_self fs options

/-- C7: every field name in the (merged) `excludeFields` list is absent
from the change-set of `formatChanges`, whatever its values on the two
sides — the loop skips excluded keys before any comparison. -/
theorem claim7_exclusion_completeness (fsN fsO : List (String × JVal))
    (options : ChangeFormatterOptions) (f : String)
    (hf : f ∈ (mergeOptions options).excludeFields.getD []) :
    f ∉ changeKeys (formatChanges (.obj fsN) (.obj fsO) options) := by
  apply not_mem_changeKeys_formatChanges
  unfold fcStep
  rw [if_pos]
  simpa using hf

/-- C7, witness: `claim7_exclusion_completeness` on documents whose only
difference is the excluded `hash` field. -/
theorem claim7_witness :
    "hash" ∈ (mergeOptions { excludeFields := some ["hash"] }).excludeFields.getD [] ∧
      "hash" ∉ changeKeys
        (formatChanges (.obj [("name", .str "a"), ("hash", .str "h2")])
          (.obj [("name", .str "a"), ("hash", .str "h1")])
          { excludeFields := some ["hash"] }) :=
  ⟨by decide,
    claim7_exclusion_completeness
      [("name", .str "a"), ("hash", .str "h2")]
      [("name", .str "a"), ("hash", .str "h1")]
      { excludeFields := some ["hash"] } "hash" (by decide)⟩

/-- C8: within one request, after the first mutation `(c0, id0)` is
recorded via `markDirectOperation` and any number of later mutations are
recorded via `markCascadingOperation`, `shouldLogAuditOperation` on
`(c0, id0)` answers `true` for every choice of `allowCascading` and
`maxCascadeDepth` — the recorded source always logs. -/
theorem claim8_source_precedence (store : ContextStore) (req : AuditRequest)
    (c0 id0 : String) (casc : List (String × String)) (opts : CascadeOptions) :
    shouldLogAuditOperation
      (casc.foldl (fun st p => markCascadingOperation st req p.1 p.2)
        (markDirectOperation store req c0 id0))
      req c0 id0 opts = true := by
  cases hreq : req.auditRequestId with
  | none => simp [shouldLogAuditOperation, hreq]
  | some rid =>
      obtain ⟨ctx, hget, h1, h2⟩ :=
        foldl_cascading_source casc _ req rid c0 id0 hreq
          (markDirect_source store req rid c0 id0 hreq)
      simp [shouldLogAuditOperation, hreq, shouldLogOperation, hget, h1, h2]

/-- C9: `shouldLogChanges(changeSet, minChanges)` is `true` exactly when
the change-set is non-null with at least `minChanges` top-level fields, and
with the default `minChanges = 1` it is `false` exactly when the change-set
is null or empty. -/
theorem claim9_minimality (changes : Option (List (String × JVal))) (minChanges : Int) :
    (shouldLogChanges changes minChanges = true ↔
      ∃ fields, changes = some fields ∧ minChanges ≤ (fields.length : Int)) ∧
    (shouldLogChanges changes 1 = false ↔ (changes = none ∨ changes = some [])) := by
  constructor
  · cases changes <;> simp [shouldLogChanges]
  · cases changes with
    | none => simp [shouldLogChanges]
    | some fields => cases fields <;> simp [shouldLogChanges]

/-- C10: the array no-change test only asks that every id extracted from
the new array occur among the old array's ids (with equal filtered
counts), so `old = [{id: "a"}, {id: "b"}]` versus
`new = [{id: "a"}, {id: "a"}]` — equal length, different identifier sets —
is treated as unchanged and the field is omitted from the change-set. -/
theorem claim10_array_id_set_quirk :
    formatChanges
      (.obj [("tags", .arr [.obj [("id", .str "a")], .obj [("id", .str "a")]])])
      (.obj [("tags", .arr [.obj [("id", .str "a")], .obj [("id", .str "b")]])])
      { excludeFields := some [], meaningfulChangesOnly := some true, maxDepth := some 5 }
      = JVal.null := by
  simp [formatChanges, mergeOptions, effectiveMaxDepth, truthy, keysOf, dedupFirst,
    dedupFirstAux, fcStep, propGet, lookupField, extractMeaningfulChanges, emcKeys,
    deepEqual, deepEqualKeys, deepEqualList, strictEq, isNullish, typeofStr, isNull,
    isRelationshipField, isUUID, idProp, hasKey, itemId, uuidShape, objectIdShape,
    genericIdShape, Option.orElse]

end AuditLog
